import Mathlib

/-!
Verification of the upipe buffer subsystem and avformat source against the code
under src/.  Machine integers are modelled as `Nat` (sizes, addresses and
refcounts stay far from 2^64 in every scenario the claims quantify over);
fallible C functions return `Option` or a `Bool × state` pair mirroring the
source's boolean conventions; assertion failures and NULL dereferences are
modelled as `none`.
-/

/-! ### urefcount (spec section 4.2; urefcount.h is not under src/)

`urefcount` is an atomic counter: `use` is fetch-add 1, `release` is
fetch-sub 1 returning whether the previous value was 1 (i.e. the caller
was the last user), `single` tests count == 1. -/

/-- Increments a reference counter (`urefcount_use`). -/
def urefcount_use (n : Nat) : Nat := n + 1

/-- Decrements a reference counter and reports whether the caller was the
last user (`urefcount_release`). -/
def urefcount_release (n : Nat) : Bool × Nat := (n == 1, n - 1)

/-- Tests whether there is only one reference (`urefcount_single`). -/
def urefcount_single (n : Nat) : Bool := n == 1

/-! ### ubuf_pic_mem (src/lib/upipe/ubuf_pic_mem.c)

A picture ubuf is a header (`struct ubuf_pic_mem` plus the
`ubuf_pic_common` geometry and per-plane views) pointing at a shared
structure (`struct ubuf_pic_mem_shared`) that owns the refcount and the
umem blob. -/

/-- One plane view of a picture ubuf: chroma name, base pointer into the
umem blob, and stride (`ubuf_pic_common` plane data). -/
structure PlaneView where
  chroma : String
  base : Nat
  stride : Nat
deriving DecidableEq

/-- The header part of a picture ubuf: debug readers counter, geometry
from `ubuf_pic_common_init`, and the plane views. -/
structure UbufPicMem where
  readers : Nat
  hmprepend : Nat
  hmappend : Nat
  hmsize : Nat
  vprepend : Nat
  vappend : Nat
  vsize : Nat
  planes : List PlaneView
deriving DecidableEq

/-- `struct ubuf_pic_mem_shared`: refcount plus the umem blob, modelled by
its aliveness (umem_free flips it to false). -/
structure UbufPicMemShared where
  refcount : Nat
  umemAlive : Bool
deriving DecidableEq

/-- `ubuf_pic_mem_use`: increments the shared refcount. -/
def ubuf_pic_mem_use (shared : UbufPicMemShared) : UbufPicMemShared :=
  { shared with refcount := urefcount_use shared.refcount }

/-- `ubuf_pic_mem_single`: true iff the shared refcount is 1. -/
def ubuf_pic_mem_single (shared : UbufPicMemShared) : Bool :=
  urefcount_single shared.refcount

/-- Modelled from the spec: `ubuf_pic_common_plane_map` lives in
ubuf_pic_common.h which is not under src/.  The spec (section 4.4) says a
plane map looks the plane up by chroma and performs the bounds checks
hoffset+hsize <= hmsize, voffset+vsize <= vsize, and hoffset aligned to
the macropixel; on success it yields a pointer into the plane. -/
def ubuf_pic_common_plane_map (pic : UbufPicMem) (macropixel : Nat)
    (chroma : String) (hoff voff hsz vsz : Nat) : Option Nat :=
  match pic.planes.find? (fun pv => pv.chroma == chroma) with
  | none => none
  | some pv =>
    if hoff % macropixel = 0 ∧ hoff + hsz ≤ pic.hmsize ∧ voff + vsz ≤ pic.vsize then
      some pv.base
    else
      none

/-- The `UBUF_WRITE_PICTURE_PLANE` branch of `ubuf_pic_mem_control`
(src/lib/upipe/ubuf_pic_mem.c lines 383-401): refuses unless the shared
refcount is single, otherwise maps the plane and bumps the debug readers
counter. Returns the mapped pointer and the updated header, or `none`. -/
def ubuf_pic_mem_write_pic_plane (pic : UbufPicMem) (shared : UbufPicMemShared)
    (macropixel : Nat) (chroma : String) (hoff voff hsz vsz : Nat) :
    Option (Nat × UbufPicMem) :=
  if !ubuf_pic_mem_single shared then
    none
  else
    match ubuf_pic_common_plane_map pic macropixel chroma hoff voff hsz vsz with
    | none => none
    | some buf => some (buf, { pic with readers := pic.readers + 1 })

/-- `ubuf_pic_mem_dup` (lines 302-329): allocates a fresh header (readers
initialized to 0 by `ubuf_pic_mem_alloc_inner`), copies the common
geometry (`ubuf_pic_common_dup`) and every plane view
(`ubuf_pic_common_plane_dup`, both modelled from the spec: "initializes
plane views to the same base/stride"), shares the shared structure and
increments its refcount via `ubuf_pic_mem_use`. -/
def ubuf_pic_mem_dup (pic : UbufPicMem) (shared : UbufPicMemShared) :
    UbufPicMem × UbufPicMemShared :=
  ({ pic with readers := 0 }, ubuf_pic_mem_use shared)

/-- `ubuf_pic_mem_free` (lines 453-477): releases the shared refcount;
when the caller was the last user, frees the umem blob. (The pool
recycling of the header and shared descriptor does not affect the shared
state observed by other ubufs.) -/
def ubuf_pic_mem_free (shared : UbufPicMemShared) : UbufPicMemShared :=
  let r := urefcount_release shared.refcount
  if r.1 then { refcount := r.2, umemAlive := false }
  else { shared with refcount := r.2 }

/-! ## Theorems for claim C1 -/

/-- Claim C1: for a picture ubuf whose shared refcount is greater than 1
(for instance right after `dup`), `UBUF_WRITE_PICTURE_PLANE` returns
failure and maps no buffer; once the refcount is back to 1 (after the
duplicate is freed), the same write-plane call succeeds. -/
theorem C1_write_plane_requires_single (pic : UbufPicMem)
    (shared : UbufPicMemShared) (macropixel : Nat) (chroma : String)
    (hoff voff hsz vsz : Nat) (h1 : shared.refcount = 1)
    (hmap : (ubuf_pic_common_plane_map pic macropixel chroma hoff voff hsz vsz).isSome) :
    (∀ sh : UbufPicMemShared, 1 < sh.refcount →
      ubuf_pic_mem_write_pic_plane pic sh macropixel chroma hoff voff hsz vsz = none) ∧
    (ubuf_pic_mem_dup pic shared).2.refcount = 2 ∧
    ubuf_pic_mem_write_pic_plane pic (ubuf_pic_mem_dup pic shared).2
      macropixel chroma hoff voff hsz vsz = none ∧
    (ubuf_pic_mem_free (ubuf_pic_mem_dup pic shared).2).refcount = 1 ∧
    (ubuf_pic_mem_write_pic_plane pic
      (ubuf_pic_mem_free (ubuf_pic_mem_dup pic shared).2)
      macropixel chroma hoff voff hsz vsz).isSome := by
  have hfail : ∀ sh : UbufPicMemShared, 1 < sh.refcount →
      ubuf_pic_mem_write_pic_plane pic sh macropixel chroma hoff voff hsz vsz = none := by
    intro sh hsh
    have hne : sh.refcount ≠ 1 := by omega
    simp [ubuf_pic_mem_write_pic_plane, ubuf_pic_mem_single, urefcount_single, hne]
  have hdup : (ubuf_pic_mem_dup pic shared).2.refcount = 2 := by
    simp [ubuf_pic_mem_dup, ubuf_pic_mem_use, urefcount_use, h1]
  refine ⟨hfail, hdup, hfail _ (by omega), ?_, ?_⟩
  · simp [ubuf_pic_mem_free, urefcount_release, hdup]
  · have hfree : (ubuf_pic_mem_free (ubuf_pic_mem_dup pic shared).2).refcount = 1 := by
      simp [ubuf_pic_mem_free, urefcount_release, hdup]
    obtain ⟨buf, hbuf⟩ := Option.isSome_iff_exists.mp hmap
    simp [ubuf_pic_mem_write_pic_plane, ubuf_pic_mem_single, urefcount_single,
      hfree, hbuf]

/-- Witness for C1 at a concrete one-plane picture. -/
theorem C1_write_plane_requires_single_witness :
    (∀ sh : UbufPicMemShared, 1 < sh.refcount →
      ubuf_pic_mem_write_pic_plane
        ⟨0, 8, 8, 8, 2, 2, 8, [⟨"y8", 0, 16⟩]⟩ sh 1 "y8" 0 0 8 8 = none) ∧
    (ubuf_pic_mem_dup ⟨0, 8, 8, 8, 2, 2, 8, [⟨"y8", 0, 16⟩]⟩ ⟨1, true⟩).2.refcount = 2 ∧
    ubuf_pic_mem_write_pic_plane ⟨0, 8, 8, 8, 2, 2, 8, [⟨"y8", 0, 16⟩]⟩
      (ubuf_pic_mem_dup ⟨0, 8, 8, 8, 2, 2, 8, [⟨"y8", 0, 16⟩]⟩ ⟨1, true⟩).2
      1 "y8" 0 0 8 8 = none ∧
    (ubuf_pic_mem_free
      (ubuf_pic_mem_dup ⟨0, 8, 8, 8, 2, 2, 8, [⟨"y8", 0, 16⟩]⟩ ⟨1, true⟩).2).refcount = 1 ∧
    (ubuf_pic_mem_write_pic_plane ⟨0, 8, 8, 8, 2, 2, 8, [⟨"y8", 0, 16⟩]⟩
      (ubuf_pic_mem_free
        (ubuf_pic_mem_dup ⟨0, 8, 8, 8, 2, 2, 8, [⟨"y8", 0, 16⟩]⟩ ⟨1, true⟩).2)
      1 "y8" 0 0 8 8).isSome :=
  C1_write_plane_requires_single ⟨0, 8, 8, 8, 2, 2, 8, [⟨"y8", 0, 16⟩]⟩
    ⟨1, true⟩ 1 "y8" 0 0 8 8 rfl (by decide)

/-! ## Theorems for claim C6 -/

/-- Claim C6: `dup` yields a new picture ubuf sharing the shared structure
with the refcount incremented and the same per-plane base/stride views;
freeing one of the two ubufs brings the refcount back to 1 without
freeing the umem, so the surviving ubuf stays intact; the umem is freed
only when the last referencing ubuf is freed. -/
theorem C6_dup_then_free_keeps_other_intact (pic : UbufPicMem)
    (shared : UbufPicMemShared) (h1 : shared.refcount = 1)
    (halive : shared.umemAlive = true) :
    (∀ sh : UbufPicMemShared, (ubuf_pic_mem_dup pic sh).2.refcount = sh.refcount + 1) ∧
    (ubuf_pic_mem_dup pic shared).1.planes = pic.planes ∧
    (ubuf_pic_mem_dup pic shared).2.refcount = 2 ∧
    (ubuf_pic_mem_dup pic shared).2.umemAlive = true ∧
    (ubuf_pic_mem_free (ubuf_pic_mem_dup pic shared).2).refcount = 1 ∧
    (ubuf_pic_mem_free (ubuf_pic_mem_dup pic shared).2).umemAlive = true ∧
    (ubuf_pic_mem_free
      (ubuf_pic_mem_free (ubuf_pic_mem_dup pic shared).2)).umemAlive = false := by
  have hdup : (ubuf_pic_mem_dup pic shared).2 =
      { refcount := 2, umemAlive := shared.umemAlive } := by
    simp [ubuf_pic_mem_dup, ubuf_pic_mem_use, urefcount_use, h1]
  refine ⟨fun sh => rfl, rfl, ?_, ?_, ?_, ?_, ?_⟩ <;>
    simp [hdup, halive, ubuf_pic_mem_free, urefcount_release]

/-- Witness for C6 on a concrete one-plane picture. -/
theorem C6_dup_then_free_keeps_other_intact_witness :
    (∀ sh : UbufPicMemShared,
      (ubuf_pic_mem_dup ⟨0, 8, 8, 4, 2, 2, 4, [⟨"y8", 32, 20⟩]⟩ sh).2.refcount =
        sh.refcount + 1) ∧
    (ubuf_pic_mem_dup ⟨0, 8, 8, 4, 2, 2, 4, [⟨"y8", 32, 20⟩]⟩ ⟨1, true⟩).1.planes =
      [⟨"y8", 32, 20⟩] ∧
    (ubuf_pic_mem_dup ⟨0, 8, 8, 4, 2, 2, 4, [⟨"y8", 32, 20⟩]⟩ ⟨1, true⟩).2.refcount = 2 ∧
    (ubuf_pic_mem_dup ⟨0, 8, 8, 4, 2, 2, 4, [⟨"y8", 32, 20⟩]⟩ ⟨1, true⟩).2.umemAlive = true ∧
    (ubuf_pic_mem_free
      (ubuf_pic_mem_dup ⟨0, 8, 8, 4, 2, 2, 4, [⟨"y8", 32, 20⟩]⟩ ⟨1, true⟩).2).refcount = 1 ∧
    (ubuf_pic_mem_free
      (ubuf_pic_mem_dup ⟨0, 8, 8, 4, 2, 2, 4, [⟨"y8", 32, 20⟩]⟩ ⟨1, true⟩).2).umemAlive = true ∧
    (ubuf_pic_mem_free (ubuf_pic_mem_free
      (ubuf_pic_mem_dup ⟨0, 8, 8, 4, 2, 2, 4, [⟨"y8", 32, 20⟩]⟩
        ⟨1, true⟩).2)).umemAlive = false :=
  C6_dup_then_free_keeps_other_intact ⟨0, 8, 8, 4, 2, 2, 4, [⟨"y8", 32, 20⟩]⟩
    ⟨1, true⟩ rfl rfl

/-! ### ubuf_pic_mem_alloc (src/lib/upipe/ubuf_pic_mem.c lines 219-293) -/

/-- One plane registered with the manager (`ubuf_pic_common_mgr` plane
data added by `ubuf_pic_mem_mgr_add_plane`). -/
structure PicPlaneSpec where
  chroma : String
  hsub : Nat
  vsub : Nat
  macropixel_size : Nat
deriving DecidableEq

/-- `struct ubuf_pic_mem_mgr`: margins in macropixels/lines, alignment and
its horizontal offset, plus the common manager's macropixel and planes.
`align_hmoffset` is an `int` in C; the model covers the non-negative
values the claims quantify over. -/
structure UbufPicMemMgr where
  macropixel : Nat
  hmprepend : Nat
  hmappend : Nat
  vprepend : Nat
  vappend : Nat
  align : Nat
  align_hmoffset : Nat
  planes : List PicPlaneSpec
deriving DecidableEq

/-- Modelled from the spec: `ubuf_pic_common_check_size` lives in
ubuf_pic_common.h which is not under src/; the spec (section 4.4) says
allocation requires `hsize % macropixel == 0`. -/
def ubuf_pic_common_check_size (mgr : UbufPicMemMgr) (hsize : Nat) : Bool :=
  hsize % mgr.macropixel == 0

/-- The stride computed for one plane in `ubuf_pic_mem_alloc` (line 256):
`(hmsize + hmprepend + hmappend) / hsub * macropixel_size + align`. -/
def pic_mem_stride (mgr : UbufPicMemMgr) (p : PicPlaneSpec) (hmsize : Nat) : Nat :=
  (hmsize + mgr.hmprepend + mgr.hmappend) / p.hsub * p.macropixel_size + mgr.align

/-- The plane size computed in `ubuf_pic_mem_alloc` (line 260):
`(vsize + vprepend + vappend) / vsub * stride`. -/
def pic_mem_plane_size (mgr : UbufPicMemMgr) (p : PicPlaneSpec)
    (hmsize vsize : Nat) : Nat :=
  (vsize + mgr.vprepend + mgr.vappend) / p.vsub * pic_mem_stride mgr p hmsize

/-- The plane base pointer computed in `ubuf_pic_mem_alloc` (lines
278-286): start from `buffer + align`; when `align` is non-zero, subtract
`(plane_buffer + (align_hmoffset + hmprepend) / hsub * macropixel_size) % align`. -/
def pic_mem_plane_base (mgr : UbufPicMemMgr) (p : PicPlaneSpec) (buffer : Nat) : Nat :=
  let pb := buffer + mgr.align
  if mgr.align ≠ 0 then
    pb - (pb + (mgr.align_hmoffset + mgr.hmprepend) / p.hsub * p.macropixel_size)
          % mgr.align
  else pb

/-- The plane-initialization loop of `ubuf_pic_mem_alloc` (lines 277-289):
walks the plane list, giving each plane its base pointer (from the running
`buffer` pointer) and stride, then advances `buffer` by the plane size. -/
def pic_mem_alloc_planes (mgr : UbufPicMemMgr) (hmsize vsize : Nat) :
    Nat → List PicPlaneSpec → List PlaneView
  | _, [] => []
  | buffer, p :: rest =>
    { chroma := p.chroma, base := pic_mem_plane_base mgr p buffer,
      stride := pic_mem_stride mgr p hmsize } ::
      pic_mem_alloc_planes mgr hmsize vsize
        (buffer + pic_mem_plane_size mgr p hmsize vsize) rest

/-- The start address of the region reserved for plane `i` inside the umem
blob: the running `buffer` pointer of the loop when it reaches plane `i`. -/
def pic_mem_region_start (mgr : UbufPicMemMgr) (hmsize vsize : Nat) :
    Nat → List PicPlaneSpec → Nat → Nat
  | buffer, _, 0 => buffer
  | buffer, [], _ + 1 => buffer
  | buffer, p :: rest, i + 1 =>
    pic_mem_region_start mgr hmsize vsize
      (buffer + pic_mem_plane_size mgr p hmsize vsize) rest i

/-- `ubuf_pic_mem_alloc` (lines 219-293): checks the size, computes
`hmsize = hsize / macropixel`, builds the header with the manager's
margins and the plane views sliced out of a fresh umem blob starting at
address `buffer`; the fresh shared structure has refcount 1 (pool reuse
resets it to 1) and a live umem. -/
def ubuf_pic_mem_alloc (mgr : UbufPicMemMgr) (hsize vsize buffer : Nat) :
    Option (UbufPicMem × UbufPicMemShared) :=
  if !ubuf_pic_common_check_size mgr hsize then none
  else
    let hmsize := hsize / mgr.macropixel
    some ({ readers := 0, hmprepend := mgr.hmprepend, hmappend := mgr.hmappend,
            hmsize := hmsize, vprepend := mgr.vprepend, vappend := mgr.vappend,
            vsize := vsize,
            planes := pic_mem_alloc_planes mgr hmsize vsize buffer mgr.planes },
          { refcount := 1, umemAlive := true })

/-! ## Theorems for claim C3 -/

/-- Helper: when `align` is non-zero, the adjusted plane base makes the
octet at `(align_hmoffset + hmprepend) / hsub * macropixel_size` land on
an `align`-octet boundary. -/
theorem pic_mem_plane_base_aligned (mgr : UbufPicMemMgr) (p : PicPlaneSpec)
    (buffer : Nat) (halign : mgr.align ≠ 0) :
    (pic_mem_plane_base mgr p buffer +
      (mgr.align_hmoffset + mgr.hmprepend) / p.hsub * p.macropixel_size)
      % mgr.align = 0 := by
  have hpos : 0 < mgr.align := Nat.pos_of_ne_zero halign
  simp only [pic_mem_plane_base, if_pos halign]
  set A := (mgr.align_hmoffset + mgr.hmprepend) / p.hsub * p.macropixel_size with hA
  set pb := buffer + mgr.align with hpb
  have hr : (pb + A) % mgr.align < mgr.align := Nat.mod_lt _ hpos
  have h1 : pb - (pb + A) % mgr.align + A = pb + A - (pb + A) % mgr.align := by
    omega
  have h2 : pb + A - (pb + A) % mgr.align = mgr.align * ((pb + A) / mgr.align) := by
    have := Nat.div_add_mod (pb + A) mgr.align
    omega
  rw [h1, h2, Nat.mul_mod_right]

/-- Helper: properties of every plane view produced by the allocation
loop, by induction over the plane list. -/
theorem pic_mem_alloc_planes_spec (mgr : UbufPicMemMgr) (hmsize vsize : Nat) :
    ∀ (ps : List PicPlaneSpec) (buffer i : Nat) (pv : PlaneView) (p : PicPlaneSpec),
      (pic_mem_alloc_planes mgr hmsize vsize buffer ps)[i]? = some pv →
      ps[i]? = some p →
      (hmsize + mgr.hmprepend + mgr.hmappend) / p.hsub * p.macropixel_size ≤ pv.stride ∧
      (mgr.align ≠ 0 →
        (pv.base + (mgr.align_hmoffset + mgr.hmprepend) / p.hsub * p.macropixel_size)
          % mgr.align = 0) ∧
      (mgr.align = 0 →
        pv.base = pic_mem_region_start mgr hmsize vsize buffer ps i) := by
  intro ps
  induction ps with
  | nil => intro buffer i pv p hpv hp; simp [pic_mem_alloc_planes] at hpv
  | cons q rest ih =>
    intro buffer i pv p hpv hp
    cases i with
    | zero =>
      rw [pic_mem_alloc_planes, List.getElem?_cons_zero] at hpv
      rw [List.getElem?_cons_zero] at hp
      injection hpv with hpv
      injection hp with hp
      subst hpv hp
      refine ⟨Nat.le_add_right _ _, fun halign => ?_, fun halign => ?_⟩
      · exact pic_mem_plane_base_aligned mgr q buffer halign
      · simp [pic_mem_plane_base, halign, pic_mem_region_start]
    | succ j =>
      rw [pic_mem_alloc_planes, List.getElem?_cons_succ] at hpv
      rw [List.getElem?_cons_succ] at hp
      have := ih (buffer + pic_mem_plane_size mgr q hmsize vsize) j pv p hpv hp
      exact ⟨this.1, this.2.1, fun h => by
        rw [this.2.2 h]; simp [pic_mem_region_start]⟩

/-- Claim C3: every successful `ubuf_pic_mem_alloc` gives each plane a
stride of at least `((hmsize+hmprepend+hmappend)/hsub)*macropixel_size`;
when `align != 0` the base pointer is adjusted so that the octet at
`base + (align_hmoffset+hmprepend)/hsub*macropixel_size` lies on an
`align`-octet boundary, and when `align == 0` the base is exactly the
unadjusted start of the plane's region (no adjustment). -/
theorem C3_pic_alloc_stride_and_alignment (mgr : UbufPicMemMgr)
    (hsize vsize buffer : Nat) (hmod : hsize % mgr.macropixel = 0) :
    ∃ pic shared, ubuf_pic_mem_alloc mgr hsize vsize buffer = some (pic, shared) ∧
      ∀ (i : Nat) (pv : PlaneView) (p : PicPlaneSpec),
        pic.planes[i]? = some pv → mgr.planes[i]? = some p →
        ((hsize / mgr.macropixel + mgr.hmprepend + mgr.hmappend) / p.hsub *
            p.macropixel_size ≤ pv.stride) ∧
        (mgr.align ≠ 0 →
          (pv.base +
            (mgr.align_hmoffset + mgr.hmprepend) / p.hsub * p.macropixel_size)
            % mgr.align = 0) ∧
        (mgr.align = 0 →
          pv.base = pic_mem_region_start mgr (hsize / mgr.macropixel) vsize buffer
            mgr.planes i) := by
  have halloc : ubuf_pic_mem_alloc mgr hsize vsize buffer =
      some ({ readers := 0, hmprepend := mgr.hmprepend, hmappend := mgr.hmappend,
              hmsize := hsize / mgr.macropixel, vprepend := mgr.vprepend,
              vappend := mgr.vappend, vsize := vsize,
              planes := pic_mem_alloc_planes mgr (hsize / mgr.macropixel) vsize
                buffer mgr.planes },
            { refcount := 1, umemAlive := true }) := by
    simp [ubuf_pic_mem_alloc, ubuf_pic_common_check_size, hmod]
  refine ⟨_, _, halloc, ?_⟩
  intro i pv p hpv hp
  exact pic_mem_alloc_planes_spec mgr (hsize / mgr.macropixel) vsize
    mgr.planes buffer i pv p hpv hp

/-- Witness for C3: a YV12-style manager (three planes, align 16),
allocating a 64x32 picture. -/
theorem C3_pic_alloc_stride_and_alignment_witness :
    64 % (1 : Nat) = 0 ∧
    ∃ pic shared,
      ubuf_pic_mem_alloc ⟨1, 8, 8, 2, 2, 16, 0,
        [⟨"y8", 1, 1, 1⟩, ⟨"u8", 2, 2, 1⟩, ⟨"v8", 2, 2, 1⟩]⟩ 64 32 1000 =
        some (pic, shared) ∧
      ∀ (i : Nat) (pv : PlaneView) (p : PicPlaneSpec),
        pic.planes[i]? = some pv →
        ([⟨"y8", 1, 1, 1⟩, ⟨"u8", 2, 2, 1⟩, ⟨"v8", 2, 2, 1⟩] :
          List PicPlaneSpec)[i]? = some p →
        ((64 / 1 + 8 + 8) / p.hsub * p.macropixel_size ≤ pv.stride) ∧
        ((16 : Nat) ≠ 0 → (pv.base + (0 + 8) / p.hsub * p.macropixel_size) % 16 = 0) ∧
        ((16 : Nat) = 0 →
          pv.base = pic_mem_region_start ⟨1, 8, 8, 2, 2, 16, 0,
            [⟨"y8", 1, 1, 1⟩, ⟨"u8", 2, 2, 1⟩, ⟨"v8", 2, 2, 1⟩]⟩ (64 / 1) 32 1000
            [⟨"y8", 1, 1, 1⟩, ⟨"u8", 2, 2, 1⟩, ⟨"v8", 2, 2, 1⟩] i) :=
  ⟨rfl, C3_pic_alloc_stride_and_alignment
    ⟨1, 8, 8, 2, 2, 16, 0, [⟨"y8", 1, 1, 1⟩, ⟨"u8", 2, 2, 1⟩, ⟨"v8", 2, 2, 1⟩]⟩
    64 32 1000 rfl⟩

/-! ### ubuf_block_common_splice (src/include/upipe/ubuf_block_common.h
lines 127-151)

A block ubuf is a chain of segments; each segment holds a reference to a
shared umem (`buffer`, modelled as an identifier into an abstract memory),
an `offset` and a `size`.  The head additionally caches `total_size` for
the whole chain.  `ubuf_block_common_splice` trims the head segment and
recurses (through `ubuf_block_splice`, which allocates a fresh header
sharing the same memory and calls back into `ubuf_block_common_splice`)
until `size` octets are satisfied; the `assert`s of the source are
modelled as `none`. -/

/-- One segment of a block ubuf chain: shared-buffer identifier, offset
and size (`struct ubuf_block` per-segment fields). -/
structure BlockSeg where
  buffer : Nat
  offset : Nat
  size : Nat
deriving DecidableEq

/-- A block ubuf: the segment chain plus the head's `total_size` cache. -/
structure UbufBlock where
  segs : List BlockSeg
  totalSize : Nat
deriving DecidableEq

/-- `ubuf_block_common_splice` on the segment chain: the head keeps the
same buffer with `offset` added and size clipped to `size`; when octets
remain, recurse into the next segment with offset 0 (the source asserts
`offset < block->size` and a non-NULL next segment: both model as
`none`). -/
def ubuf_block_splice_segs : List BlockSeg → Nat → Nat → Option (List BlockSeg)
  | [], _, _ => none
  | seg :: rest, offset, size =>
    if offset < seg.size then
      let newSize := min (seg.size - offset) size
      let newSeg : BlockSeg :=
        { buffer := seg.buffer, offset := seg.offset + offset, size := newSize }
      if size - newSize = 0 then
        some [newSeg]
      else
        match ubuf_block_splice_segs rest 0 (size - newSize) with
        | none => none
        | some tail => some (newSeg :: tail)
    else
      none

/-- `ubuf_block_splice` at the ubuf level: the new head records
`total_size = size` (line 138 of the source). -/
def ubuf_block_splice (b : UbufBlock) (offset size : Nat) : Option UbufBlock :=
  (ubuf_block_splice_segs b.segs offset size).map
    fun segs => { segs := segs, totalSize := size }

/-- The octets of one segment under an abstract memory `mem` mapping
(buffer identifier, octet index) to a byte. -/
def block_seg_bytes (mem : Nat → Nat → Nat) (s : BlockSeg) : List Nat :=
  (List.range s.size).map fun i => mem s.buffer (s.offset + i)

/-- The octets of a whole block ubuf: concatenation over the chain. -/
def ubuf_block_bytes (mem : Nat → Nat → Nat) (b : UbufBlock) : List Nat :=
  (b.segs.map (block_seg_bytes mem)).flatten

/-! ## Theorems for claim C2 -/

/-- Unfolding equation of `ubuf_block_splice_segs` when the head assert
`offset < block->size` holds. -/
theorem ubuf_block_splice_segs_cons (seg : BlockSeg) (rest : List BlockSeg)
    (offset size : Nat) (h : offset < seg.size) :
    ubuf_block_splice_segs (seg :: rest) offset size =
      if size - min (seg.size - offset) size = 0 then
        some [⟨seg.buffer, seg.offset + offset, min (seg.size - offset) size⟩]
      else
        match ubuf_block_splice_segs rest 0 (size - min (seg.size - offset) size) with
        | none => none
        | some tail =>
          some (⟨seg.buffer, seg.offset + offset, min (seg.size - offset) size⟩ :: tail) := by
  rw [ubuf_block_splice_segs, if_pos h]

/-- Helper: splicing a non-empty chain of positive-size segments over its
full extent reproduces the chain itself. -/
theorem ubuf_block_splice_segs_full (segs : List BlockSeg) (hne : segs ≠ [])
    (hpos : ∀ s ∈ segs, 0 < s.size) :
    ubuf_block_splice_segs segs 0 ((segs.map BlockSeg.size).sum) = some segs := by
  induction segs with
  | nil => exact absurd rfl hne
  | cons seg rest ih =>
    have hseg : 0 < seg.size := hpos seg (List.mem_cons_self _ _)
    have hsum : (List.map BlockSeg.size (seg :: rest)).sum =
        seg.size + (List.map BlockSeg.size rest).sum := by
      simp
    rw [List.map_cons]
    rw [ubuf_block_splice_segs_cons seg rest 0 _ hseg]
    have hmin : min (seg.size - 0) ((List.map BlockSeg.size (seg :: rest)).sum) =
        seg.size := by
      rw [Nat.sub_zero, hsum]
      exact Nat.min_eq_left (Nat.le_add_right _ _)
    rw [List.map_cons] at hmin
    rw [hmin]
    have hrem : (BlockSeg.size seg :: List.map BlockSeg.size rest).sum - seg.size =
        (List.map BlockSeg.size rest).sum := by
      simp
    rw [hrem]
    cases rest with
    | nil => simp
    | cons r rs =>
      have hrpos : 0 < (List.map BlockSeg.size (r :: rs)).sum := by
        have := hpos r (by simp)
        simp only [List.map_cons, List.sum_cons]
        omega
      rw [if_neg (by omega)]
      rw [ih (by simp) (fun s hs => hpos s (List.mem_cons_of_mem _ hs))]
      simp

/-- Claim C2: for every block ubuf `b` made of a non-empty chain of
positive-size segments whose `total_size` cache is consistent, splicing
the whole extent `splice(b, 0, b.total_size)` succeeds and yields a ubuf
with the same `total_size`, the very same segment list (hence referencing
the same underlying buffers, no byte copied), and byte-for-byte the same
content under every memory. -/
theorem C2_splice_whole_extent (b : UbufBlock) (hne : b.segs ≠ [])
    (hpos : ∀ s ∈ b.segs, 0 < s.size)
    (htotal : b.totalSize = (b.segs.map BlockSeg.size).sum) :
    ∃ b', ubuf_block_splice b 0 b.totalSize = some b' ∧
      b'.totalSize = b.totalSize ∧
      b'.segs = b.segs ∧
      ∀ mem : Nat → Nat → Nat, ubuf_block_bytes mem b' = ubuf_block_bytes mem b := by
  refine ⟨{ segs := b.segs, totalSize := b.totalSize }, ?_, rfl, rfl, fun _ => rfl⟩
  rw [ubuf_block_splice, htotal, ubuf_block_splice_segs_full b.segs hne hpos]
  rfl

/-- Witness for C2 on a concrete two-segment chain. -/
theorem C2_splice_whole_extent_witness :
    ∃ b', ubuf_block_splice ⟨[⟨1, 0, 4⟩, ⟨2, 8, 6⟩], 10⟩ 0 10 = some b' ∧
      b'.totalSize = 10 ∧
      b'.segs = [⟨1, 0, 4⟩, ⟨2, 8, 6⟩] ∧
      ∀ mem : Nat → Nat → Nat,
        ubuf_block_bytes mem b' = ubuf_block_bytes mem ⟨[⟨1, 0, 4⟩, ⟨2, 8, 6⟩], 10⟩ :=
  C2_splice_whole_extent ⟨[⟨1, 0, 4⟩, ⟨2, 8, 6⟩], 10⟩ (by decide)
    (by decide) (by decide)

/-! ### upipe_avformat_source (src/lib/upipe-av/upipe_avformat_source.c)

The avformat source pipe probes a URL, announces one flow per supported
stream, then reads packets with a worker and routes them to output
sub-pipes keyed by their libavformat stream id. -/

/-- A flow definition uref as used by the avformat source: model of the
attributes the claims inspect ("a.id" set by `uref_av_flow_set_id`;
uref_av_flow.h is not under src/, so the attribute is spec-modelled as an
optional field). -/
structure AVFlowDef where
  avId : Option Nat
deriving DecidableEq

/-- Modelled from the spec: `uref_av_flow_get_id` (uref_av_flow.h is not
under src/) reads the "a.id" attribute of a flow definition. -/
def uref_av_flow_get_id (flowDef : AVFlowDef) : Option Nat := flowDef.avId

/-- The codec information of one stream of the probed AVFormatContext, as
far as the dispatch of `upipe_avfsrc_probe` (lines 716-737) inspects it:
the media type, whether the codec id falls in the raw-audio range
(`CODEC_ID_FIRST_AUDIO <= id < CODEC_ID_ADPCM_IMA_QT`) or equals
`CODEC_ID_RAWVIDEO`, whether `upipe_av_to_flow_def` knows the codec id
(external table), and `bits_per_coded_sample` for raw audio. -/
inductive AVCodecKind
  | rawAudio (bitsPerCodedSample : Nat)
  | codedAudio (knownCodec : Bool)
  | rawVideo
  | codedVideo (knownCodec : Bool)
  | subtitle
  | data
deriving DecidableEq

/-- The flow-definition allocation performed per stream by
`upipe_avfsrc_probe` (lines 716-737, helpers at lines 546-663):
`alloc_raw_audio_def` fails when `bits_per_coded_sample % 8 != 0`;
`alloc_audio_def` and `alloc_video_def` fail when `upipe_av_to_flow_def`
does not know the codec; `alloc_raw_video_def`, `alloc_subtitles_def`
and `alloc_data_def` are stubs returning NULL.  Memory allocation of
urefs is assumed to succeed. -/
def upipe_avfsrc_alloc_flow_def : AVCodecKind → Option AVFlowDef
  | .rawAudio bits => if bits % 8 = 0 then some { avId := none } else none
  | .codedAudio known => if known then some { avId := none } else none
  | .rawVideo => none
  | .codedVideo known => if known then some { avId := none } else none
  | .subtitle => none
  | .data => none

/-- Observable actions of `upipe_avfsrc_probe`: a `SPLIT_ADD_FLOW` event
carrying a flow id, or the start of the reading worker
(`upipe_avfsrc_start`). -/
inductive AvfsrcAction
  | addFlow (flowId : Nat)
  | startWorker
deriving DecidableEq

/-- Whether an action is a `SPLIT_ADD_FLOW` event. -/
def AvfsrcAction.isAddFlow : AvfsrcAction → Bool
  | .addFlow _ => true
  | .startWorker => false

/-- The stream loop of `upipe_avfsrc_probe` (lines 710-759): for stream
`i`, allocate its flow definition; when allocation fails, warn and
`continue`; otherwise set the "a.id" attribute to `i` and throw
`SPLIT_ADD_FLOW` with flow id `i`. -/
def upipe_avfsrc_probe_streams : Nat → List AVCodecKind → List AvfsrcAction
  | _, [] => []
  | i, s :: rest =>
    match upipe_avfsrc_alloc_flow_def s with
    | none => upipe_avfsrc_probe_streams (i + 1) rest
    | some _ => .addFlow i :: upipe_avfsrc_probe_streams (i + 1) rest

/-- `upipe_avfsrc_probe` (lines 671-762) after the dealer handshake: when
`avformat_find_stream_info` failed, close the URL and stop; otherwise run
the stream loop and finally call `upipe_avfsrc_start` (line 761), which
starts the idler worker. The returned list is the ordered trace of
observable actions. -/
def upipe_avfsrc_probe (findStreamInfoError : Bool)
    (streams : List AVCodecKind) : List AvfsrcAction :=
  if findStreamInfoError then []
  else upipe_avfsrc_probe_streams 0 streams ++ [.startWorker]

/-! ## Theorems for claim C4 -/

/-- Counterexample to C4 as stated: probing succeeds on a context with
exactly one stream, of data type, yet zero `SPLIT_ADD_FLOW` events are
emitted (the loop skips streams whose flow definition cannot be
allocated), not one per stream. -/
theorem C4_counterexample_unsupported_stream :
    ((upipe_avfsrc_probe false [AVCodecKind.data]).filter
        AvfsrcAction.isAddFlow).length = 0 ∧
    [AVCodecKind.data].length = 1 ∧
    ((upipe_avfsrc_probe false [AVCodecKind.data]).filter
        AvfsrcAction.isAddFlow).length ≠ [AVCodecKind.data].length := by
  refine ⟨rfl, rfl, by decide⟩

/-- Helper: the stream loop emits, in order, one `addFlow i` exactly for
the streams (numbered from `i0`) whose flow definition allocates. -/
theorem upipe_avfsrc_probe_streams_eq (streams : List AVCodecKind) :
    ∀ i0 : Nat, upipe_avfsrc_probe_streams i0 streams =
      ((streams.enumFrom i0).filter
        (fun p => (upipe_avfsrc_alloc_flow_def p.2).isSome)).map
        (fun p => AvfsrcAction.addFlow p.1) := by
  induction streams with
  | nil => intro i0; rfl
  | cons s rest ih =>
    intro i0
    rw [upipe_avfsrc_probe_streams]
    cases hs : upipe_avfsrc_alloc_flow_def s with
    | none => simp [List.enumFrom_cons, List.filter_cons, hs, ih]
    | some f => simp [List.enumFrom_cons, List.filter_cons, hs, ih]

/-- Claim C4 (amended): when probing succeeds, the avformat source emits
one `SPLIT_ADD_FLOW` event per *supported* stream of the probed context —
those whose flow definition can be allocated — carrying that stream's
index as flow id, in stream order, and all of them before the worker is
started. Streams whose flow-definition allocation fails (raw video,
subtitles, data, unknown codecs, raw audio with a fractional byte depth)
are skipped with a warning. -/
theorem C4_add_flow_per_supported_stream (streams : List AVCodecKind) :
    upipe_avfsrc_probe false streams =
      (((streams.enumFrom 0).filter
        (fun p => (upipe_avfsrc_alloc_flow_def p.2).isSome)).map
        (fun p => AvfsrcAction.addFlow p.1)) ++ [AvfsrcAction.startWorker] := by
  rw [upipe_avfsrc_probe, if_neg (by simp), upipe_avfsrc_probe_streams_eq]

/-! ### avfsrc output sub-pipes (lines 138-346 and 439-451) -/

/-- `UINT64_MAX`, the sentinel for an unset stream id (line 204). -/
def UINT64_MAX : Nat := 2 ^ 64 - 1

/-- The fields of `struct upipe_avfsrc_output` the claims inspect:
libavformat stream id, stored flow definition, and whether a ubuf manager
is attached. -/
structure AvfsrcOutput where
  id : Nat
  flowDef : Option AVFlowDef
  ubufMgr : Bool
deriving DecidableEq

/-- `upipe_avfsrc_output_alloc` (lines 194-216): a fresh output starts
with `id = UINT64_MAX`, no flow definition, no ubuf manager; it is added
to the parent's outputs list. -/
def upipe_avfsrc_output_alloc : AvfsrcOutput :=
  { id := UINT64_MAX, flowDef := none, ubufMgr := false }

/-- `upipe_avfsrc_output_set_flow_def` (lines 226-261), acting on output
`self` while `others` are the parent's other outputs: first drop any
previously stored flow definition and reset the id to `UINT64_MAX`; read
"a.id" (failure if absent); refuse an id already used by another output;
duplicate the flow definition (`dupOk` models `uref_dup`'s allocation
outcome, failure throws an allocation error); on success store the id and
the duplicated flow definition. -/
def upipe_avfsrc_output_set_flow_def (self : AvfsrcOutput)
    (others : List AvfsrcOutput) (flowDef : AVFlowDef) (dupOk : Bool) :
    Bool × AvfsrcOutput :=
  let self1 := if self.flowDef.isSome then
    { self with flowDef := none, id := UINT64_MAX } else self
  match uref_av_flow_get_id flowDef with
  | none => (false, self1)
  | some id =>
    if others.any (fun o => o.id == id) then (false, self1)
    else if !dupOk then (false, self1)
    else (true, { self1 with id := id, flowDef := some flowDef })

/-- Compatibility of the stream ids of two outputs: they may coincide
only when one of them is the unset sentinel. -/
def avfsrcIdCompat (a b : AvfsrcOutput) : Prop :=
  a.id = UINT64_MAX ∨ b.id = UINT64_MAX ∨ a.id ≠ b.id

/-- The uniqueness invariant of an avfsrc pipe's outputs list: pairwise
distinct stream ids (ignoring the unset sentinel), and an output without
a stored flow definition holds the unset sentinel. -/
def AvfsrcOutputsWf (l : List AvfsrcOutput) : Prop :=
  l.Pairwise avfsrcIdCompat ∧ ∀ o ∈ l, o.flowDef = none → o.id = UINT64_MAX

/-! ## Theorems for claim C5 -/

/-- Helper: on every failure path, `set_flow_def` leaves `self` with the
unset sentinel id (its previous id having been reset together with the
dropped flow definition). -/
theorem set_flow_def_fail_id_unset (self : AvfsrcOutput)
    (others : List AvfsrcOutput) (flowDef : AVFlowDef) (dupOk : Bool)
    (hself : self.flowDef = none → self.id = UINT64_MAX)
    (hfail : (upipe_avfsrc_output_set_flow_def self others flowDef dupOk).1 = false) :
    (upipe_avfsrc_output_set_flow_def self others flowDef dupOk).2.id = UINT64_MAX := by
  have hid1 : (if self.flowDef.isSome then
      { self with flowDef := none, id := UINT64_MAX } else self).id = UINT64_MAX := by
    cases h : self.flowDef with
    | none => simpa [h] using hself h
    | some f => simp [h]
  unfold upipe_avfsrc_output_set_flow_def
  unfold upipe_avfsrc_output_set_flow_def at hfail
  cases hgi : uref_av_flow_get_id flowDef with
  | none => simpa [hgi] using hid1
  | some id =>
    rw [hgi] at hfail
    by_cases hany : others.any (fun o => o.id == id)
    · simpa [hgi, hany] using hid1
    · by_cases hdup : dupOk
      · simp [hgi, hany, hdup] at hfail
      · simpa [hgi, hany, hdup] using hid1

/-- Helper: the output returned by `set_flow_def` is either the reset
`self` (all failure paths) or, on success, `self` carrying the new id —
an id no other output holds — and the new flow definition. -/
theorem set_flow_def_result_cases (self : AvfsrcOutput)
    (others : List AvfsrcOutput) (flowDef : AVFlowDef) (dupOk : Bool) :
    (upipe_avfsrc_output_set_flow_def self others flowDef dupOk).2 =
      (if self.flowDef.isSome then { self with flowDef := none, id := UINT64_MAX }
        else self) ∨
    (∃ id, uref_av_flow_get_id flowDef = some id ∧
      (others.any (fun o => o.id == id)) = false ∧
      (upipe_avfsrc_output_set_flow_def self others flowDef dupOk).2.id = id ∧
      (upipe_avfsrc_output_set_flow_def self others flowDef dupOk).2.flowDef =
        some flowDef) := by
  unfold upipe_avfsrc_output_set_flow_def
  cases hgi : uref_av_flow_get_id flowDef with
  | none => left; rfl
  | some id =>
    by_cases hany : others.any (fun o => o.id == id)
    · left; simp [hany]
    · by_cases hdup : dupOk
      · right
        exact ⟨id, rfl, by simpa using hany, by simp [hany, hdup], by
          simp [hany, hdup]⟩
      · left; simp [hany, hdup]

/-- Claim C5: stream ids of the live outputs of one avformat source are
pairwise distinct ignoring the unset sentinel. `SET_FLOW_DEF` with an
"a.id" already held by a different output of the same parent fails and
leaves the sub-pipe holding the unset sentinel (not the colliding id);
and each operation — allocating an output, setting a flow definition
(success or failure), releasing an output — preserves the invariant. -/
theorem C5_output_ids_unique (self : AvfsrcOutput) (others : List AvfsrcOutput)
    (flowDef : AVFlowDef) (dupOk : Bool)
    (hwf : AvfsrcOutputsWf (self :: others)) :
    (∀ id, uref_av_flow_get_id flowDef = some id →
      (∃ o ∈ others, o.id = id) →
      (upipe_avfsrc_output_set_flow_def self others flowDef dupOk).1 = false ∧
      (upipe_avfsrc_output_set_flow_def self others flowDef dupOk).2.id =
        UINT64_MAX) ∧
    AvfsrcOutputsWf
      ((upipe_avfsrc_output_set_flow_def self others flowDef dupOk).2 :: others) ∧
    AvfsrcOutputsWf ((self :: others) ++ [upipe_avfsrc_output_alloc]) ∧
    (∀ k, AvfsrcOutputsWf ((self :: others).eraseIdx k)) := by
  obtain ⟨hpw, hfd⟩ := hwf
  have hself : self.flowDef = none → self.id = UINT64_MAX :=
    hfd self (List.mem_cons_self _ _)
  have hpw_others : others.Pairwise avfsrcIdCompat := (List.pairwise_cons.mp hpw).2
  have hfd_others : ∀ o ∈ others, o.flowDef = none → o.id = UINT64_MAX :=
    fun o ho => hfd o (List.mem_cons_of_mem _ ho)
  refine ⟨?_, ?_, ?_, ?_⟩
  · -- collision: failure and id left unset
    intro id hgi ⟨o, ho, hoid⟩
    have hany : others.any (fun o => o.id == id) = true := by
      rw [List.any_eq_true]
      exact ⟨o, ho, by simpa using hoid⟩
    have hfail : (upipe_avfsrc_output_set_flow_def self others flowDef dupOk).1 =
        false := by
      unfold upipe_avfsrc_output_set_flow_def
      rw [hgi]
      simp [hany]
    exact ⟨hfail, set_flow_def_fail_id_unset self others flowDef dupOk hself hfail⟩
  · -- set_flow_def preserves the invariant
    have hid1 : (if self.flowDef.isSome then
        { self with flowDef := none, id := UINT64_MAX } else self).flowDef = none →
        (if self.flowDef.isSome then
        { self with flowDef := none, id := UINT64_MAX } else self).id = UINT64_MAX := by
      cases h : self.flowDef with
      | none => intro _; simpa [h] using hself h
      | some f => simp [h]
    have hid1' : (if self.flowDef.isSome then
        { self with flowDef := none, id := UINT64_MAX } else self).id = UINT64_MAX ∨
        (if self.flowDef.isSome then
        { self with flowDef := none, id := UINT64_MAX } else self).id = self.id := by
      cases h : self.flowDef with
      | none => right; simp [h]
      | some f => left; simp [h]
    constructor
    · -- pairwise
      rw [List.pairwise_cons]
      refine ⟨?_, hpw_others⟩
      intro o ho
      have hcompat_self : avfsrcIdCompat self o :=
        (List.pairwise_cons.mp hpw).1 o ho
      rcases set_flow_def_result_cases self others flowDef dupOk with hcase |
        ⟨id, hgi, hany, hid, hfdres⟩
      · rw [avfsrcIdCompat, hcase]
        rcases hid1' with h | h
        · exact Or.inl h
        · rcases hcompat_self with hc | hc | hc
          · exact Or.inl (h.trans hc)
          · exact Or.inr (Or.inl hc)
          · exact Or.inr (Or.inr (h ▸ hc))
      · have hne : o.id ≠ id := by
          have := List.any_eq_false.mp hany o ho
          simpa using this
        rw [avfsrcIdCompat, hid]
        exact Or.inr (Or.inr fun he => hne he.symm)
    · -- flow-def-none implies unset id
      intro o ho hofd
      rcases List.mem_cons.mp ho with rfl | ho'
      · rcases set_flow_def_result_cases self others flowDef dupOk with hcase |
          ⟨id, hgi, hany, hid, hfdres⟩
        · rw [hcase] at hofd ⊢
          exact hid1 hofd
        · rw [hfdres] at hofd
          exact absurd hofd (by simp)
      · exact hfd_others o ho' hofd
  · -- alloc preserves the invariant
    constructor
    · rw [List.pairwise_append]
      refine ⟨hpw, List.pairwise_singleton _ _, ?_⟩
      intro a _ b hb
      rw [List.mem_singleton] at hb
      subst hb
      exact Or.inr (Or.inl rfl)
    · intro o ho _
      rcases List.mem_append.mp ho with ho' | ho'
      · exact hfd o ho' ‹_›
      · rw [List.mem_singleton] at ho'
        subst ho'
        rfl
  · -- release preserves the invariant
    intro k
    have hsub : ((self :: others).eraseIdx k).Sublist (self :: others) :=
      List.eraseIdx_sublist _ _
    exact ⟨hpw.sublist hsub, fun o ho => hfd o (hsub.subset ho)⟩

/-- Witness for C5: one sibling already owns id 5, the incoming flow
definition also carries id 5. -/
theorem C5_output_ids_unique_witness :
    (∀ id, uref_av_flow_get_id ⟨some 5⟩ = some id →
      (∃ o ∈ [({ id := 5, flowDef := some ⟨some 5⟩, ubufMgr := false } :
          AvfsrcOutput)], o.id = id) →
      (upipe_avfsrc_output_set_flow_def upipe_avfsrc_output_alloc
        [{ id := 5, flowDef := some ⟨some 5⟩, ubufMgr := false }] ⟨some 5⟩ true).1 =
        false ∧
      (upipe_avfsrc_output_set_flow_def upipe_avfsrc_output_alloc
        [{ id := 5, flowDef := some ⟨some 5⟩, ubufMgr := false }] ⟨some 5⟩ true).2.id =
        UINT64_MAX) ∧
    AvfsrcOutputsWf
      ((upipe_avfsrc_output_set_flow_def upipe_avfsrc_output_alloc
        [{ id := 5, flowDef := some ⟨some 5⟩, ubufMgr := false }] ⟨some 5⟩ true).2 ::
        [{ id := 5, flowDef := some ⟨some 5⟩, ubufMgr := false }]) ∧
    AvfsrcOutputsWf ((upipe_avfsrc_output_alloc ::
      [{ id := 5, flowDef := some ⟨some 5⟩, ubufMgr := false }]) ++
      [upipe_avfsrc_output_alloc]) ∧
    (∀ k, AvfsrcOutputsWf ((upipe_avfsrc_output_alloc ::
      [({ id := 5, flowDef := some ⟨some 5⟩, ubufMgr := false } :
        AvfsrcOutput)]).eraseIdx k)) :=
  C5_output_ids_unique upipe_avfsrc_output_alloc
    [{ id := 5, flowDef := some ⟨some 5⟩, ubufMgr := false }] ⟨some 5⟩ true
    (by constructor
        · refine List.pairwise_cons.mpr ⟨?_, List.pairwise_singleton _ _⟩
          intro o ho
          exact Or.inl rfl
        · intro o ho h
          fin_cases ho <;> simp_all [upipe_avfsrc_output_alloc])

/-! ### avfsrc worker (lines 439-515) and control (lines 889-1030) -/

/-- `AVPacket` as far as the worker inspects it: stream index, size and
payload octets. -/
structure AVPacket where
  streamIndex : Nat
  size : Nat
  data : List Nat
deriving DecidableEq

/-- `upipe_avfsrc_find_output` (lines 439-451): first output of the list
whose id equals the requested id, if any. -/
def upipe_avfsrc_find_output (outputs : List AvfsrcOutput) (id : Nat) :
    Option AvfsrcOutput :=
  outputs.find? (fun o => o.id == id)

/-- Observable actions of one `upipe_avfsrc_worker` invocation. -/
inductive WorkerAction
  | throwReadEnd
  | throwNeedUbufMgr
  | throwAerror
  | outputUref (streamId : Nat) (payload : List Nat)
deriving DecidableEq

/-- `upipe_avfsrc_worker` (lines 459-515): `readResult` is the outcome of
`av_read_frame` (`none` on error), `probeGivesUbufMgr` tells whether the
`NEED_UBUF_MGR` probe installs a ubuf manager, `urefAllocOk` whether
`uref_block_alloc`/`uref_block_write` succeed.  Returns the ordered trace
of observable actions and the number of urefs allocated.  A packet whose
stream index matches no output is freed and dropped silently. -/
def upipe_avfsrc_worker (outputs : List AvfsrcOutput)
    (readResult : Option AVPacket) (probeGivesUbufMgr urefAllocOk : Bool) :
    List WorkerAction × Nat :=
  match readResult with
  | none => ([.throwReadEnd], 0)
  | some pkt =>
    match upipe_avfsrc_find_output outputs pkt.streamIndex with
    | none => ([], 0)
    | some output =>
      let needActions : List WorkerAction :=
        if output.ubufMgr then [] else [.throwNeedUbufMgr]
      if !(output.ubufMgr || probeGivesUbufMgr) then
        (needActions, 0)
      else if !urefAllocOk then
        (needActions ++ [.throwAerror], 0)
      else
        (needActions ++ [.outputUref pkt.streamIndex pkt.data], 1)

/-! ## Theorems for claim C10 -/

/-- Claim C10: when the worker reads a packet whose stream index matches
no registered output, the packet is discarded: no uref is allocated, no
record is output, and no event is thrown for that packet. -/
theorem C10_unmatched_packet_discarded (outputs : List AvfsrcOutput)
    (pkt : AVPacket) (probeGivesUbufMgr urefAllocOk : Bool)
    (hnone : upipe_avfsrc_find_output outputs pkt.streamIndex = none) :
    upipe_avfsrc_worker outputs (some pkt) probeGivesUbufMgr urefAllocOk = ([], 0) := by
  rw [upipe_avfsrc_worker, hnone]

/-- Witness for C10: a packet with stream index 3 against outputs owning
ids 0 and 1. -/
theorem C10_unmatched_packet_discarded_witness :
    upipe_avfsrc_find_output
      [{ id := 0, flowDef := none, ubufMgr := true },
       { id := 1, flowDef := none, ubufMgr := true }] 3 = none ∧
    upipe_avfsrc_worker
      [{ id := 0, flowDef := none, ubufMgr := true },
       { id := 1, flowDef := none, ubufMgr := true }]
      (some ⟨3, 4, [9, 9, 9, 9]⟩) true true = ([], 0) :=
  ⟨by decide, C10_unmatched_packet_discarded
    [{ id := 0, flowDef := none, ubufMgr := true },
     { id := 1, flowDef := none, ubufMgr := true }]
    ⟨3, 4, [9, 9, 9, 9]⟩ true true (by decide)⟩

/-! ### avfsrc control: GET_TIME / SET_TIME (lines 889-912 and 1002-1030) -/

/-- The avfsrc pipe state touched by `upipe_avfsrc_control`: the managers
and watchers tracked by the helpers, the URL, and the probed flag. -/
structure AvfsrcState where
  urefMgr : Bool
  upumpMgr : Bool
  upump : Bool
  upumpAvDeal : Bool
  uclock : Bool
  url : Option String
  probed : Bool
deriving DecidableEq

/-- The control commands modelled: `UPIPE_AVFSRC_GET_TIME` and
`UPIPE_AVFSRC_SET_TIME`. -/
inductive AvfsrcCommand
  | getTime
  | setTime (t : Nat)
deriving DecidableEq

/-- `_upipe_avfsrc_get_time` (lines 895-900): always returns false and
reads nothing of the state. -/
def _upipe_avfsrc_get_time (s : AvfsrcState) : Bool × AvfsrcState := (false, s)

/-- `_upipe_avfsrc_set_time` (lines 908-912): always returns false and
touches nothing. -/
def _upipe_avfsrc_set_time (s : AvfsrcState) (_t : Nat) : Bool × AvfsrcState :=
  (false, s)

/-- The dispatch of `_upipe_avfsrc_control` (lines 921-992) restricted to
the two time commands. -/
def _upipe_avfsrc_control (s : AvfsrcState) : AvfsrcCommand → Bool × AvfsrcState
  | .getTime => _upipe_avfsrc_get_time s
  | .setTime t => _upipe_avfsrc_set_time s t

/-- `upipe_avfsrc_control` (lines 1002-1030): run the inner dispatch and
return failure immediately when it fails; when it succeeds and a upump
manager, a URL but no worker are present, start the worker (when already
probed) or arm the av_deal watcher. upump allocation is assumed to
succeed. -/
def upipe_avfsrc_control (s : AvfsrcState) (cmd : AvfsrcCommand) :
    Bool × AvfsrcState :=
  let r := _upipe_avfsrc_control s cmd
  if !r.1 then (false, r.2)
  else
    let s1 := r.2
    if s1.upumpMgr ∧ s1.url.isSome ∧ !s1.upump then
      if s1.probed then (true, { s1 with upump := true })
      else if s1.upumpAvDeal then (true, s1)
      else (true, { s1 with upumpAvDeal := true })
    else (true, s1)

/-! ## Theorems for claim C7 -/

/-- Claim C7: for every avfsrc pipe state and every time value, the
`UPIPE_AVFSRC_GET_TIME` and `UPIPE_AVFSRC_SET_TIME` control commands
return failure and leave the pipe state unchanged (in particular the
post-control worker-start logic is not reached). -/
theorem C7_time_controls_fail (s : AvfsrcState) (t : Nat) :
    upipe_avfsrc_control s .getTime = (false, s) ∧
    upipe_avfsrc_control s (.setTime t) = (false, s) := by
  constructor <;> rfl

/-! ### upipe_transfer (src/include/upipe-modules/upipe_transfer.h)

Only the header is under src/: the transfer manager owns a bounded
multi-producer single-consumer command FIFO drained, in order, by a
watcher on the attached thread. The queue model below is therefore built
from the spec (sections 4.7 and 8). -/

/-- A command marshalled through the transfer FIFO: `(opcode, pipe,
payload)` per the spec's command list. -/
inductive XferCommand
  | release (pipe : Nat)
  | setOutput (pipe : Nat) (target : Nat)
  | setUri (pipe : Nat) (uri : String)
deriving DecidableEq

/-- The pipe a transfer command targets. -/
def XferCommand.pipe : XferCommand → Nat
  | .release p => p
  | .setOutput p _ => p
  | .setUri p _ => p

/-- Modelled from the spec: the transfer manager's bounded command FIFO
(`queue_length` from `upipe_xfer_mgr_alloc`, implementation not under
src/). -/
structure XferQueue where
  queueLength : Nat
  msgs : List XferCommand
deriving DecidableEq

/-- Modelled from the spec: enqueueing a command appends it to the FIFO;
a full queue rejects the submission. -/
def upipe_xfer_enqueue (q : XferQueue) (c : XferCommand) : Option XferQueue :=
  if q.msgs.length < q.queueLength then some { q with msgs := q.msgs ++ [c] }
  else none

/-- Enqueue a whole list of submissions in program order, failing if any
one is rejected. -/
def upipe_xfer_enqueue_all (q : XferQueue) : List XferCommand → Option XferQueue
  | [] => some q
  | c :: cs =>
    match upipe_xfer_enqueue q c with
    | none => none
    | some q1 => upipe_xfer_enqueue_all q1 cs

/-- Modelled from the spec: the watcher on the attached thread drains the
FIFO and applies the commands in queue order; the returned list is the
application order. -/
def upipe_xfer_drain (q : XferQueue) : List XferCommand × XferQueue :=
  (q.msgs, { q with msgs := [] })

/-! ## Theorems for claim C8 -/

/-- Helper: successful enqueues append the submissions in program order. -/
theorem upipe_xfer_enqueue_all_msgs (cs : List XferCommand) :
    ∀ (q q' : XferQueue), upipe_xfer_enqueue_all q cs = some q' →
      q'.msgs = q.msgs ++ cs := by
  induction cs with
  | nil =>
    intro q q' h
    rw [upipe_xfer_enqueue_all] at h
    injection h with h
    simp [← h]
  | cons c rest ih =>
    intro q q' h
    rw [upipe_xfer_enqueue_all] at h
    cases he : upipe_xfer_enqueue q c with
    | none => rw [he] at h; exact absurd h (by simp)
    | some q1 =>
      rw [he] at h
      have h1 := ih q1 q' h
      rw [upipe_xfer_enqueue] at he
      by_cases hlen : q.msgs.length < q.queueLength
      · rw [if_pos hlen] at he
        injection he with he
        rw [h1, ← he]
        simp
      · rw [if_neg hlen] at he
        exact absurd he (by simp)

/-- Claim C8: commands submitted to the transfer FIFO are applied on the
attached thread in enqueue order: after any successful sequence of
enqueues, the drained application order is exactly the submission list,
so two submissions keep their relative positions; in particular a
`RELEASE` for a pipe, enqueued after an earlier command targeting the
same pipe, is applied at its later position, never before the earlier
command. -/
theorem C8_xfer_fifo_order (n : Nat) (cs : List XferCommand) (q : XferQueue)
    (henq : upipe_xfer_enqueue_all ⟨n, []⟩ cs = some q) :
    (upipe_xfer_drain q).1 = cs ∧
    (∀ i j : Nat, i < j →
      (upipe_xfer_drain q).1[i]? = cs[i]? ∧ (upipe_xfer_drain q).1[j]? = cs[j]?) ∧
    (∀ (i j p : Nat) (c : XferCommand), i < j →
      cs[j]? = some (XferCommand.release p) →
      cs[i]? = some c → XferCommand.pipe c = p →
      (upipe_xfer_drain q).1[j]? = some (XferCommand.release p) ∧
      (upipe_xfer_drain q).1[i]? = some c) := by
  have hmsgs : q.msgs = cs := by
    have := upipe_xfer_enqueue_all_msgs cs ⟨n, []⟩ q henq
    simpa using this
  have hdrain : (upipe_xfer_drain q).1 = cs := hmsgs
  refine ⟨hdrain, fun i j _ => ⟨by rw [hdrain], by rw [hdrain]⟩,
    fun i j p c _ hj hi _ => ⟨by rw [hdrain]; exact hj, by rw [hdrain]; exact hi⟩⟩

/-- Witness for C8: a SET_OUTPUT followed by a RELEASE of the same pipe
through a queue of capacity 4. -/
theorem C8_xfer_fifo_order_witness :
    (upipe_xfer_drain ⟨4, [XferCommand.setOutput 1 2, XferCommand.release 1]⟩).1 =
      [XferCommand.setOutput 1 2, XferCommand.release 1] ∧
    (∀ i j : Nat, i < j →
      (upipe_xfer_drain
        ⟨4, [XferCommand.setOutput 1 2, XferCommand.release 1]⟩).1[i]? =
        ([XferCommand.setOutput 1 2, XferCommand.release 1] :
          List XferCommand)[i]? ∧
      (upipe_xfer_drain
        ⟨4, [XferCommand.setOutput 1 2, XferCommand.release 1]⟩).1[j]? =
        ([XferCommand.setOutput 1 2, XferCommand.release 1] :
          List XferCommand)[j]?) ∧
    (∀ (i j p : Nat) (c : XferCommand), i < j →
      ([XferCommand.setOutput 1 2, XferCommand.release 1] :
        List XferCommand)[j]? = some (XferCommand.release p) →
      ([XferCommand.setOutput 1 2, XferCommand.release 1] :
        List XferCommand)[i]? = some c →
      XferCommand.pipe c = p →
      (upipe_xfer_drain
        ⟨4, [XferCommand.setOutput 1 2, XferCommand.release 1]⟩).1[j]? =
        some (XferCommand.release p) ∧
      (upipe_xfer_drain
        ⟨4, [XferCommand.setOutput 1 2, XferCommand.release 1]⟩).1[i]? = some c) :=
  C8_xfer_fifo_order 4 [XferCommand.setOutput 1 2, XferCommand.release 1]
    ⟨4, [XferCommand.setOutput 1 2, XferCommand.release 1]⟩ (by decide)

/-! ### uref_pic_flow_add_plane (src/include/upipe/uref_pic_flow.h
lines 106-123)

A picture flow definition uref carries its attributes in a udict; the
typed getters and setters of uref_attr.h are not under src/ and are
spec-modelled as a lookup/replace on a `(name, typed value)` list. -/

/-- A typed attribute value (spec section 3: small-unsigned and string
are the types `uref_pic_flow_add_plane` manipulates). -/
inductive UAttr
  | smallUnsigned (v : Nat)
  | str (v : String)
deriving DecidableEq

/-- A udict: ordered attribute list keyed by name, no duplicate names. -/
def UDict : Type := List (String × UAttr)

instance : DecidableEq UDict := by
  unfold UDict
  infer_instance

/-- Modelled from the spec: looking an attribute up by name. -/
def udict_get (d : UDict) (name : String) : Option UAttr :=
  ((d : List (String × UAttr)).find? (fun p => p.1 == name)).map Prod.snd

/-- Modelled from the spec: setting an attribute replaces the value under
an existing name or appends a new entry. -/
def udict_set : UDict → String → UAttr → UDict
  | [], name, v => [(name, v)]
  | (n, a) :: rest, name, v =>
    if n == name then (name, v) :: rest
    else (n, a) :: udict_set rest name v

/-- Modelled from the spec: `uref_pic_flow_get_planes` reads the
small-unsigned "p.planes" attribute. -/
def uref_pic_flow_get_planes (uref : UDict) : Option Nat :=
  match udict_get uref "p.planes" with
  | some (UAttr.smallUnsigned v) => some v
  | _ => none

/-- Modelled from the spec: `uref_pic_flow_set_planes` stores the
small-unsigned "p.planes" attribute. -/
def uref_pic_flow_set_planes (uref : UDict) (v : Nat) : UDict :=
  udict_set uref "p.planes" (UAttr.smallUnsigned v)

/-- Modelled from the spec: `uref_pic_flow_set_hsubsampling` stores
"p.hsub[plane]". -/
def uref_pic_flow_set_hsubsampling (uref : UDict) (v plane : Nat) : UDict :=
  udict_set uref ("p.hsub[" ++ toString plane ++ "]") (UAttr.smallUnsigned v)

/-- Modelled from the spec: `uref_pic_flow_set_vsubsampling` stores
"p.vsub[plane]". -/
def uref_pic_flow_set_vsubsampling (uref : UDict) (v plane : Nat) : UDict :=
  udict_set uref ("p.vsub[" ++ toString plane ++ "]") (UAttr.smallUnsigned v)

/-- Modelled from the spec: `uref_pic_flow_set_macropixel_size` stores
"p.macropix[plane]". -/
def uref_pic_flow_set_macropixel_size (uref : UDict) (v plane : Nat) : UDict :=
  udict_set uref ("p.macropix[" ++ toString plane ++ "]") (UAttr.smallUnsigned v)

/-- Modelled from the spec: `uref_pic_flow_set_chroma` stores
"p.chroma[plane]". -/
def uref_pic_flow_set_chroma (uref : UDict) (c : String) (plane : Nat) : UDict :=
  udict_set uref ("p.chroma[" ++ toString plane ++ "]") (UAttr.str c)

/-- `uref_pic_flow_add_plane` (uref_pic_flow.h lines 106-123): reject a
zero `hsub`, `vsub` or `macropixel_size` or a NULL chroma; read the
current "p.planes" count (failure when absent); then store the
incremented count and the four per-plane attributes of the new plane.
The attribute setters are assumed not to hit allocation failures. -/
def uref_pic_flow_add_plane (uref : UDict) (hsub vsub macropixel_size : Nat)
    (chroma : Option String) : Bool × UDict :=
  if hsub = 0 ∨ vsub = 0 ∨ macropixel_size = 0 ∨ chroma.isNone then (false, uref)
  else
    match chroma, uref_pic_flow_get_planes uref with
    | some c, some plane =>
      (true,
        uref_pic_flow_set_chroma
          (uref_pic_flow_set_macropixel_size
            (uref_pic_flow_set_vsubsampling
              (uref_pic_flow_set_hsubsampling
                (uref_pic_flow_set_planes uref (plane + 1)) hsub plane)
              vsub plane)
            macropixel_size plane)
          c plane)
    | _, _ => (false, uref)

/-! ## Theorems for claim C9 -/

/-- Claim C9: `uref_pic_flow_add_plane` returns failure and registers no
plane — the uref (hence its "p.planes" count and every existing plane
attribute) is unchanged — whenever `hsub` is 0, `vsub` is 0,
`macropixel_size` is 0, the chroma is NULL, or the uref carries no
"p.planes" attribute. -/
theorem C9_add_plane_rejects_bad_args (uref : UDict)
    (hsub vsub macropixel_size : Nat) (chroma : Option String)
    (hbad : hsub = 0 ∨ vsub = 0 ∨ macropixel_size = 0 ∨ chroma = none ∨
      uref_pic_flow_get_planes uref = none) :
    uref_pic_flow_add_plane uref hsub vsub macropixel_size chroma =
      (false, uref) := by
  unfold uref_pic_flow_add_plane
  by_cases hguard : hsub = 0 ∨ vsub = 0 ∨ macropixel_size = 0 ∨ chroma.isNone
  · rw [if_pos hguard]
  · rw [if_neg hguard]
    have hplanes : uref_pic_flow_get_planes uref = none := by
      rcases hbad with h | h | h | h | h
      · exact absurd (Or.inl h) hguard
      · exact absurd (Or.inr (Or.inl h)) hguard
      · exact absurd (Or.inr (Or.inr (Or.inl h))) hguard
      · exact absurd (Or.inr (Or.inr (Or.inr (by simp [h])))) hguard
      · exact h
    split
    · rename_i c plane hc hp
      rw [hplanes] at hp
      exact absurd hp (by simp)
    · rfl

/-- Witness for C9: a uref with a "p.planes" attribute but a zero hsub. -/
theorem C9_add_plane_rejects_bad_args_witness :
    uref_pic_flow_add_plane [("p.planes", UAttr.smallUnsigned 1)] 0 1 1
      (some "y8") = (false, [("p.planes", UAttr.smallUnsigned 1)]) :=
  C9_add_plane_rejects_bad_args [("p.planes", UAttr.smallUnsigned 1)] 0 1 1
    (some "y8") (Or.inl rfl)
